import Mathlib

/-!
# Verification of the `elephant` metrics calculator

A shallow embedding of `src/src/analytics/metrics.py` (class `MetricsCalculator`)
together with proofs about it.  The storage collaborator (`src/db/database.py` is
not part of the sources) is modelled from the spec as explicit lists of rows that
are passed to each operation:

* `Paper` models a row of `get_papers_with_latest_citations()`
  (`{title, citations, year, doi, venue}`); since the rows come from a SQL
  query, every column is present but may be `NULL`.  The `venue` field keeps
  the three Python states apart (key absent, value `None`, a string) because
  `_estimate_potential` treats them differently.
* `StoredPaper` models a row of the `papers` table, `CitationRecord` a row of
  the `citations` table; timestamps are modelled by the whole number of days
  between the fetch time of the record and `datetime.now()`, citation counts
  are the non-negative counts of the spec's data model.
* Python's `sorted(..., key=..., reverse=True)` is a stable descending sort and
  is embedded as `List.insertionSort` with the reflexive descending relation,
  which is sorted, stable and a permutation — the characterising properties of
  Python's sort.
* `_estimate_potential` manipulates Python floats whose values are always
  multiples of `0.5` (bonuses of `10.0`, `5.0`, `(3 - age) * 2.0` and
  `min(citations, 10) * 0.5`), on which float arithmetic and comparison are
  exact; the score is embedded exactly as an `Int` counting half points
  (twice the Python value), which preserves all sums and comparisons.
-/

deriving instance DecidableEq for Except

namespace Elephant

/-- The `venue` entry of a paper dictionary: the key may be absent, may hold
Python `None` (SQL `NULL`), or a string. -/
inductive VenueField where
  | missing : VenueField
  | null : VenueField
  | val : String → VenueField
deriving DecidableEq

/-- A row of `get_papers_with_latest_citations()` as consumed by the metrics
calculator: `{title, citations, year, doi, venue}`.  `year` and `doi` are
`none` when the stored value is `NULL`/missing. -/
structure Paper where
  title : String
  citations : Nat
  year : Option Int
  doi : Option String
  venue : VenueField
deriving DecidableEq

/-- A row of the `papers` table, as selected by
`SELECT * FROM papers WHERE doi = ? OR arxiv_id = ?`. -/
structure StoredPaper where
  id : Nat
  title : String
  doi : Option String
  arxiv_id : Option String
  year : Option Int
  venue : Option String
deriving DecidableEq

/-- A row of the `citations` table for one paper: `days_ago` is the whole
number of days `(now - record_date).days` between the record's timestamp and
`datetime.now()`, `citation_count` the recorded count. -/
structure CitationRecord where
  paper_id : Nat
  days_ago : Nat
  citation_count : Nat
deriving DecidableEq

/-! ## `calculate_h_index` (metrics.py lines 14-28) -/

/-- The `for i, citations in enumerate(sorted_citations, 1)` loop of
`calculate_h_index`: `i` is the 1-based rank, `h` the running `h_index`;
`if citations >= i: h_index = i else: break`. -/
def hAux : List Int → Nat → Nat → Nat
  | [], _, h => h
  | c :: rest, i, h => if (i : Int) ≤ c then hAux rest (i + 1) i else h

/-- Python `sorted(citation_counts, reverse=True)`. -/
def sortDescInt (l : List Int) : List Int :=
  List.insertionSort (fun a b => b ≤ a) l

/-- Embeds `MetricsCalculator.calculate_h_index`: return `0` on an empty list,
otherwise run the ranked loop over the list sorted in descending order. -/
def calculate_h_index (citation_counts : List Int) : Nat :=
  if citation_counts.isEmpty then 0
  else hAux (sortDescInt citation_counts) 1 0

/-! ## Basic facts about the h-index loop -/

theorem hAux_le_start : ∀ (s : List Int) (i h : Nat), h ≤ i → h ≤ hAux s i h := by
  intro s
  induction s with
  | nil => intro i h _; exact Nat.le_refl h
  | cons c rest ih =>
    intro i h hle
    simp only [hAux]
    by_cases hc : (i : Int) ≤ c
    · rw [if_pos hc]
      exact Nat.le_trans hle (ih (i + 1) i (Nat.le_succ i))
    · rw [if_neg hc]

theorem hAux_le_length : ∀ (s : List Int) (i : Nat), hAux s i (i - 1) ≤ i - 1 + s.length := by
  intro s
  induction s with
  | nil => intro i; simp [hAux]
  | cons c rest ih =>
    intro i
    simp only [hAux, List.length_cons]
    by_cases hc : (i : Int) ≤ c
    · rw [if_pos hc]
      have h1 : hAux rest (i + 1) i ≤ i + rest.length := by
        have := ih (i + 1)
        simpa using this
      omega
    · rw [if_neg hc]
      omega

theorem hAux_reaches : ∀ (s : List Int) (i : Nat),
    hAux s i (i - 1) = i - 1 ∨
      (i ≤ hAux s i (i - 1) ∧
        (hAux s i (i - 1) : Int) ≤ s.getD (hAux s i (i - 1) - i) 0) := by
  intro s
  induction s with
  | nil => intro i; exact Or.inl rfl
  | cons c rest ih =>
    intro i
    simp only [hAux]
    by_cases hc : (i : Int) ≤ c
    · rw [if_pos hc]
      have hstep : hAux rest (i + 1) (i + 1 - 1) = hAux rest (i + 1) i := by
        norm_num
      rcases ih (i + 1) with heq | ⟨hge, hval⟩
      · right
        rw [hstep] at heq
        rw [heq]
        refine ⟨Nat.le_refl i, ?_⟩
        simp [hc]
      · right
        rw [hstep] at hge hval
        refine ⟨Nat.le_trans (Nat.le_succ i) hge, ?_⟩
        have hidx : hAux rest (i + 1) i - i = (hAux rest (i + 1) i - (i + 1)) + 1 := by
          omega
        rw [hidx]
        simpa using hval
    · rw [if_neg hc]
      exact Or.inl rfl

theorem hAux_maximal : ∀ (s : List Int) (i : Nat), 1 ≤ i →
    List.Sorted (fun a b : Int => b ≤ a) s →
    ∀ j : Nat, i ≤ j → j ≤ i - 1 + s.length → (j : Int) ≤ s.getD (j - i) 0 →
      j ≤ hAux s i (i - 1) := by
  intro s
  induction s with
  | nil =>
    intro i hi _ j hij hlen _
    simp only [List.length_nil, Nat.add_zero] at hlen
    omega
  | cons c rest ih =>
    intro i hi hsort j hij hlen hval
    simp only [hAux]
    by_cases hc : (i : Int) ≤ c
    · rw [if_pos hc]
      have hstep : hAux rest (i + 1) i = hAux rest (i + 1) (i + 1 - 1) := by
        norm_num
      rcases Nat.eq_or_lt_of_le hij with heq | hlt
      · -- `j = i`: the loop records at least `i`
        rw [← heq]
        rw [hstep]
        have := hAux_le_start rest (i + 1) (i + 1 - 1) (by omega)
        omega
      · -- `j > i`: recurse into the tail with rank `i + 1`
        rw [hstep]
        refine ih (i + 1) (by omega) hsort.of_cons j (by omega) ?_ ?_
        · simp only [List.length_cons] at hlen
          omega
        · have hidx : j - i = (j - (i + 1)) + 1 := by omega
          rw [hidx] at hval
          simpa using hval
    · rw [if_neg hc]
      -- the loop broke at rank `i`: no later rank can satisfy the bound
      by_contra hcon
      push_neg at hcon
      have hji : i ≤ j := hij
      rcases Nat.eq_or_lt_of_le hji with heq | hlt
      · rw [← heq] at hval
        simp at hval
        omega
      · have hidx : j - i = (j - (i + 1)) + 1 := by omega
        rw [hidx] at hval
        simp only [List.getD_cons_succ] at hval
        have hmem : rest.getD (j - (i + 1)) 0 ∈ rest ∨ rest.getD (j - (i + 1)) 0 = 0 := by
          by_cases hr : j - (i + 1) < rest.length
          · left
            rw [List.getD_eq_getElem _ _ hr]
            exact List.getElem_mem hr
          · right
            exact List.getD_eq_default _ _ (by omega)
        rcases hmem with hmem | hzero
        · have hle : rest.getD (j - (i + 1)) 0 ≤ c :=
            List.rel_of_sorted_cons hsort _ hmem
          have : (j : Int) ≤ c := le_trans hval hle
          have : (i : Int) ≤ c := le_trans (by exact_mod_cast Nat.le_of_lt hlt) this
          exact hc this
        · rw [hzero] at hval
          omega

/-! ## `get_summary_stats` (metrics.py lines 30-55) -/

/-- The dictionary returned by `get_summary_stats`.  The three `change` fields
are the declared placeholders that the code always sets to `0`. -/
structure SummaryStats where
  total_papers : Nat
  total_citations : Nat
  h_index : Nat
  avg_citations : ℚ
  papers_change : Int
  citations_change : Int
  h_index_change : Int
deriving DecidableEq

/-- Embeds `MetricsCalculator.get_summary_stats`, applied to the rows returned by
`get_papers_with_latest_citations()`; `avg_citations` uses Python's true
division, guarded by `if total_papers > 0 else 0`. -/
def get_summary_stats (papers : List Paper) : SummaryStats :=
  let total_papers : Nat := papers.length
  let total_citations : Nat := (papers.map (fun p => p.citations)).sum
  let citation_counts : List Int := papers.map (fun p => (p.citations : Int))
  let h_index := calculate_h_index citation_counts
  let avg_citations : ℚ :=
    if total_papers > 0 then (total_citations : ℚ) / (total_papers : ℚ) else 0
  ⟨total_papers, total_citations, h_index, avg_citations, 0, 0, 0⟩

/-! ## `get_top_papers` (metrics.py lines 57-72) -/

/-- An entry of the list returned by `get_top_papers`:
`{title, citations, year, doi, venue}` where `venue` is `p.get('venue')`
(`None` both when absent and when stored as `NULL`). -/
structure TopPaper where
  title : String
  citations : Nat
  year : Option Int
  doi : Option String
  venue : Option String
deriving DecidableEq

/-- Python `p.get('venue')`: `None` for an absent key and for a `None` value. -/
def pyGetVenue : VenueField → Option String
  | .missing => none
  | .null => none
  | .val s => some s

/-- The projection building one output entry of `get_top_papers`. -/
def topProj (p : Paper) : TopPaper :=
  ⟨p.title, p.citations, p.year, p.doi, pyGetVenue p.venue⟩

/-- The ordering of `sorted(papers, key=lambda x: x['citations'], reverse=True)`. -/
def byCitationsDesc : Paper → Paper → Prop := fun a b => b.citations ≤ a.citations

instance : DecidableRel byCitationsDesc := fun a b => Nat.decLe b.citations a.citations

/-- Python's slice `l[:limit]` for an `int` limit: a nonnegative limit keeps the
first `limit` elements, a negative one drops the last `-limit` elements. -/
def pySliceTo {α : Type} (limit : Int) (l : List α) : List α :=
  if limit < 0 then l.take (l.length - limit.natAbs) else l.take limit.toNat

/-- Embeds `MetricsCalculator.get_top_papers`: stable sort by citations descending,
truncate with `[:limit]`, project each row to the output dictionary. -/
def get_top_papers (limit : Int) (papers : List Paper) : List TopPaper :=
  (pySliceTo limit (List.insertionSort byCitationsDesc papers)).map topProj

/-! ## `get_paper_stats` (metrics.py lines 74-130) -/

/-- The SQL predicate `doi = ? OR arxiv_id = ?` (a `NULL` column never
matches). -/
def matchesIdentifier (identifier : String) (p : StoredPaper) : Bool :=
  p.doi == some identifier || p.arxiv_id == some identifier

/-- Modelled from the spec: `Database.get_citation_history(paper_id, days)` of
the storage collaborator (`src/db/database.py` is absent from the sources)
returns the citation records of the given paper whose timestamp lies within
the last `days` days. -/
def get_citation_history (records : List CitationRecord) (paper_id : Nat)
    (days : Nat) : List CitationRecord :=
  records.filter (fun r => r.paper_id == paper_id && decide (r.days_ago ≤ days))

/-- The three running maxima `citations_7d`, `citations_30d`, `citations_1y` of
the history loop in `get_paper_stats`. -/
structure Horizons where
  c7 : Nat
  c30 : Nat
  c1y : Nat
deriving DecidableEq

/-- The `for record in history` loop of `get_paper_stats`: each record updates
the maxima of the horizons (7, 30, 365 days) it falls into. -/
def growthLoop : List CitationRecord → Horizons → Horizons
  | [], acc => acc
  | r :: rest, acc =>
    growthLoop rest
      ⟨if r.days_ago ≤ 7 then max acc.c7 r.citation_count else acc.c7,
       if r.days_ago ≤ 30 then max acc.c30 r.citation_count else acc.c30,
       if r.days_ago ≤ 365 then max acc.c1y r.citation_count else acc.c1y⟩

/-- The maximum `citation_count` of a list of records, `0` when empty — this is
`SELECT MAX(citation_count)` combined with the `if ... else 0` guard. -/
def maxCount (l : List CitationRecord) : Nat :=
  l.foldr (fun r a => max r.citation_count a) 0

/-- The query `SELECT MAX(citation_count) FROM citations WHERE paper_id = ?` with the
`latest['citations'] if latest and latest['citations'] else 0` guard. -/
def latestCitations (records : List CitationRecord) (paper_id : Nat) : Nat :=
  maxCount (records.filter (fun r => r.paper_id == paper_id))

/-- The dictionary returned by `get_paper_stats`. -/
structure PaperStats where
  title : String
  doi : Option String
  arxiv_id : Option String
  year : Option Int
  venue : Option String
  citations : Nat
  citations_7d : Int
  citations_30d : Int
  citations_1y : Int
deriving DecidableEq

/-- The body of `get_paper_stats` once the paper row is fetched: scan its
365-day citation history for the three horizon maxima and report
`current - maximum if maximum else 0` for each horizon. -/
def paperStatsOf (records : List CitationRecord) (paper : StoredPaper) : PaperStats :=
  let history := get_citation_history records paper.id 365
  let h := growthLoop history ⟨0, 0, 0⟩
  let current := latestCitations records paper.id
  ⟨paper.title, paper.doi, paper.arxiv_id, paper.year, paper.venue, current,
    if h.c7 ≠ 0 then (current : Int) - h.c7 else 0,
    if h.c30 ≠ 0 then (current : Int) - h.c30 else 0,
    if h.c1y ≠ 0 then (current : Int) - h.c1y else 0⟩

/-- Embeds `MetricsCalculator.get_paper_stats`: find the paper by DOI or arXiv id,
raising `Paper not found` when the query returns no row. -/
def get_paper_stats (papers : List StoredPaper) (records : List CitationRecord)
    (identifier : String) : Except String PaperStats :=
  match papers.find? (matchesIdentifier identifier) with
  | none => Except.error ("Paper not found: " ++ identifier)
  | some paper => Except.ok (paperStatsOf records paper)

/-- The maximum citation count observed for `paper_id` within the last `d`
days of the 365-day history window (the spec's "maximum count observed at a
lookback horizon"). -/
def horizonMax (records : List CitationRecord) (paper_id : Nat) (d : Nat) : Nat :=
  maxCount ((get_citation_history records paper_id 365).filter
    (fun r => decide (r.days_ago ≤ d)))

/-- The growth value exactly as the claim words it: current count minus the
maximum observed within the horizon, reported as `0` instead when the current
count is lower than that maximum.  Stated from the spec, for comparison with
the code. -/
def claimedGrowth (current observed : Nat) : Int :=
  if current < observed then 0 else (current : Int) - (observed : Int)

/-! ## `get_citation_trends` (metrics.py lines 132-150) -/

/-- One value of the `by_year` dictionary: `{'papers': …, 'citations': …}`. -/
structure YearBucket where
  papers : Nat
  citations : Nat
deriving DecidableEq

/-- Add one paper with citation count `c` to the bucket of year `y`,
creating the bucket at the end when the year is new (Python dictionaries
keep insertion order). -/
def bumpYear (y : Int) (c : Nat) : List (Int × YearBucket) → List (Int × YearBucket)
  | [] => [(y, ⟨1, c⟩)]
  | e :: rest =>
    if e.1 = y then (e.1, ⟨e.2.papers + 1, e.2.citations + c⟩) :: rest
    else e :: bumpYear y c rest

/-- The `for paper in papers` loop of `get_citation_trends`: only papers with
a truthy `year` (present and nonzero) are bucketed. -/
def trendFold : List Paper → List (Int × YearBucket) → List (Int × YearBucket)
  | [], acc => acc
  | p :: rest, acc =>
    match p.year with
    | some y =>
      if y ≠ 0 then trendFold rest (bumpYear y p.citations acc) else trendFold rest acc
    | none => trendFold rest acc

/-- The dictionary returned by `get_citation_trends`. -/
structure Trends where
  by_year : List (Int × YearBucket)
  total_papers : Nat
  total_citations : Nat
deriving DecidableEq

/-- Embeds `MetricsCalculator.get_citation_trends`. -/
def get_citation_trends (papers : List Paper) : Trends :=
  ⟨trendFold papers [], papers.length, (papers.map (fun p => p.citations)).sum⟩

/-- Reading `by_year[y]`: look a year up in the bucket list. -/
def lookupYear (l : List (Int × YearBucket)) (y : Int) : Option YearBucket :=
  (l.find? (fun e => e.1 == y)).map (fun e => e.2)

/-- The number of input papers carrying publication year `y`. -/
def countYear (papers : List Paper) (y : Int) : Nat :=
  (papers.filter (fun p => p.year == some y)).length

/-- The summed citations of the input papers carrying publication year `y`. -/
def sumYear (papers : List Paper) (y : Int) : Nat :=
  ((papers.filter (fun p => p.year == some y)).map (fun p => p.citations)).sum

/-- Python truthiness of the `year` field: present and nonzero. -/
def yearTruthy : Option Int → Bool
  | none => false
  | some y => y != 0

/-- The citations summed over all `by_year` buckets. -/
def bucketCitSum (l : List (Int × YearBucket)) : Nat :=
  (l.map (fun e => e.2.citations)).sum

/-! ## `identify_low_visibility_papers` / `_estimate_potential`
(metrics.py lines 152-202) -/

/-- Tests whether `pat` is a leading block of `l` (character lists). -/
def charsStartWith : List Char → List Char → Bool
  | [], _ => true
  | _ :: _, [] => false
  | p :: ps, c :: cs => p == c && charsStartWith ps cs

/-- Tests whether `pat` occurs contiguously somewhere in `l` (character lists). -/
def charsContain (pat : List Char) : List Char → Bool
  | [] => charsStartWith pat []
  | c :: cs => charsStartWith pat (c :: cs) || charsContain pat cs

/-- Python's `pat in s` substring test. -/
def strContains (s pat : String) : Bool :=
  charsContain pat.data s.data

/-- Python `str.lower()` character by character (ASCII case mapping, which covers the
keyword lists the score compares against). -/
def strLower (s : String) : String :=
  ⟨s.data.map Char.toLower⟩

/-- The access `paper.get('venue', '').lower()`: an absent key falls back to `''`, a
string is lower-cased, but a `None` value raises `AttributeError`
(`None.lower()` does not exist). -/
def lowerVenue : VenueField → Option String
  | .missing => some ""
  | .null => none
  | .val s => some (strLower s)

/-- The high-tier venue keywords of `_estimate_potential`. -/
def highTier : List String := ["nature", "science", "cell", "lancet", "pnas"]

/-- The mid-tier venue keywords of `_estimate_potential`. -/
def midTier : List String := ["ieee", "acm", "springer"]

/-- Venue-tier bonus in half points: `10.0` for a high-tier keyword match,
else `5.0` for a mid-tier one, else nothing. -/
def venueBonus (v : String) : Int :=
  if highTier.any (fun t => strContains v t) then 20
  else if midTier.any (fun t => strContains v t) then 10
  else 0

/-- Recency bonus in half points: `(3 - age) * 2.0` when the year is truthy
and the age is below three years. -/
def recencyBonus (now_year : Int) (year : Option Int) : Int :=
  match year with
  | some y =>
    if y ≠ 0 then (if now_year - y < 3 then (3 - (now_year - y)) * 4 else 0) else 0
  | none => 0

/-- Citation bonus in half points: `min(citations, 10) * 0.5` when the count
is positive. -/
def citationBonus (citations : Nat) : Int :=
  if 0 < citations then (min citations 10 : Nat) else 0

/-- Embeds `MetricsCalculator._estimate_potential`, with the score in half points
(twice the Python float, which is exact).  A `None` venue makes the Python
code raise `AttributeError` before any score is computed. -/
def estimate_potential (now_year : Int) (p : Paper) : Except String Int :=
  match lowerVenue p.venue with
  | none => Except.error "AttributeError: NoneType has no attribute lower"
  | some v =>
    Except.ok (venueBonus v + recencyBonus now_year p.year + citationBonus p.citations)

/-- An entry of the list returned by `identify_low_visibility_papers`;
`potential` is in half points (twice the Python float). -/
structure LowVisEntry where
  title : String
  year : Int
  citations : Nat
  age : Int
  doi : Option String
  potential : Int
deriving DecidableEq

/-- The ordering of `low_visibility.sort(key=lambda x: x['potential'],
reverse=True)`. -/
def byPotentialDesc : LowVisEntry → LowVisEntry → Prop := fun a b => b.potential ≤ a.potential

instance : DecidableRel byPotentialDesc := fun a b => Int.decLe b.potential a.potential

/-- The `for paper in papers` loop of `identify_low_visibility_papers`:
papers with a truthy year, age of at least one year and citations below the
threshold are appended to the accumulator (the computed potential can raise
on a `None` venue, which aborts the whole call). -/
def lowVisLoop (now_year threshold : Int) :
    List Paper → List LowVisEntry → Except String (List LowVisEntry)
  | [], acc => Except.ok acc
  | p :: rest, acc =>
    match p.year with
    | some y =>
      if y ≠ 0 then
        if 1 ≤ now_year - y ∧ (p.citations : Int) < threshold then
          match estimate_potential now_year p with
          | Except.error e => Except.error e
          | Except.ok pot =>
            lowVisLoop now_year threshold rest
              (acc ++ [⟨p.title, y, p.citations, now_year - y, p.doi, pot⟩])
        else lowVisLoop now_year threshold rest acc
      else lowVisLoop now_year threshold rest acc
    | none => lowVisLoop now_year threshold rest acc

/-- Embeds `MetricsCalculator.identify_low_visibility_papers`: collect the
qualifying papers, then stable-sort by potential descending. -/
def identify_low_visibility_papers (now_year threshold : Int) (papers : List Paper) :
    Except String (List LowVisEntry) :=
  match lowVisLoop now_year threshold papers [] with
  | Except.error e => Except.error e
  | Except.ok entries => Except.ok (List.insertionSort byPotentialDesc entries)

/-! ## Facts about the descending sorts -/

theorem sortDescInt_sorted (l : List Int) :
    List.Sorted (fun a b : Int => b ≤ a) (sortDescInt l) := by
  haveI : IsTotal Int (fun a b : Int => b ≤ a) := ⟨fun a b => le_total b a⟩
  haveI : IsTrans Int (fun a b : Int => b ≤ a) := ⟨fun a b c h1 h2 => le_trans h2 h1⟩
  exact List.sorted_insertionSort _ l

theorem sortDescInt_perm (l : List Int) : (sortDescInt l).Perm l :=
  List.perm_insertionSort _ l

theorem sortDescInt_length (l : List Int) : (sortDescInt l).length = l.length :=
  (sortDescInt_perm l).length_eq

theorem sortDescInt_eq_of_perm {l1 l2 : List Int} (h : l1.Perm l2) :
    sortDescInt l1 = sortDescInt l2 := by
  haveI : IsAntisymm Int (fun a b : Int => b ≤ a) := ⟨fun a b h1 h2 => le_antisymm h2 h1⟩
  exact List.eq_of_perm_of_sorted
    (((sortDescInt_perm l1).trans h).trans (sortDescInt_perm l2).symm)
    (sortDescInt_sorted l1) (sortDescInt_sorted l2)

/-! ## Claims C1 and C9: the h-index -/

/-- C1: for every list of citation counts, `calculate_h_index` returns the
largest rank `i` whose `i`-th value in the descending order is at least `i`
(and `0` when no rank qualifies, in particular on the empty list); moreover
`h_index([]) = 0`, `h_index([5,3,3,1]) = 3` and `h_index([10,10,10]) = 3`. -/
theorem C1_h_index_is_greatest_rank :
    (∀ counts : List Int,
      (counts = [] → calculate_h_index counts = 0) ∧
      (calculate_h_index counts = 0 ∨
        (1 ≤ calculate_h_index counts ∧ calculate_h_index counts ≤ counts.length ∧
          (calculate_h_index counts : Int) ≤
            (sortDescInt counts).getD (calculate_h_index counts - 1) 0)) ∧
      (∀ i : Nat, 1 ≤ i → i ≤ counts.length →
        (i : Int) ≤ (sortDescInt counts).getD (i - 1) 0 →
          i ≤ calculate_h_index counts)) ∧
    calculate_h_index [] = 0 ∧ calculate_h_index [5, 3, 3, 1] = 3 ∧
    calculate_h_index [10, 10, 10] = 3 := by
  refine ⟨?_, by decide, by decide, by decide⟩
  intro counts
  by_cases hemp : counts.isEmpty
  · have hnil : counts = [] := List.isEmpty_iff.mp hemp
    subst hnil
    refine ⟨fun _ => rfl, Or.inl rfl, ?_⟩
    intro i h1 hlen _
    simp at hlen
    omega
  · have hval : calculate_h_index counts = hAux (sortDescInt counts) 1 0 := by
      unfold calculate_h_index
      rw [if_neg hemp]
    refine ⟨?_, ?_, ?_⟩
    · intro hnil
      rw [hnil] at hemp
      simp at hemp
    · rw [hval]
      have h0 : (0 : Nat) = 1 - 1 := rfl
      rw [h0]
      rcases hAux_reaches (sortDescInt counts) 1 with heq | ⟨hge, hv⟩
      · exact Or.inl heq
      · right
        refine ⟨hge, ?_, by simpa using hv⟩
        have := hAux_le_length (sortDescInt counts) 1
        rw [sortDescInt_length] at this
        omega
    · intro i h1 hlen hgetd
      rw [hval]
      have h0 : (0 : Nat) = 1 - 1 := rfl
      rw [h0]
      refine hAux_maximal (sortDescInt counts) 1 (Nat.le_refl 1) (sortDescInt_sorted counts)
        i h1 ?_ (by simpa using hgetd)
      rw [sortDescInt_length]
      omega

/-- Witness for C1 at `counts = [5,3,3,1]`, `i = 3`. -/
theorem C1_witness_example : 3 ≤ calculate_h_index [5, 3, 3, 1] :=
  (C1_h_index_is_greatest_rank.1 [5, 3, 3, 1]).2.2 3 (by decide) (by decide) (by decide)

/-- C9: `calculate_h_index` is invariant under permutation of its input, and
its result never exceeds the length of the input. -/
theorem C9_h_index_perm_invariant_and_bounded :
    (∀ l1 l2 : List Int, l1.Perm l2 → calculate_h_index l1 = calculate_h_index l2) ∧
    (∀ l : List Int, calculate_h_index l ≤ l.length) := by
  constructor
  · intro l1 l2 hperm
    unfold calculate_h_index
    have hlen : l1.length = l2.length := hperm.length_eq
    have hemp : l1.isEmpty = l2.isEmpty := by
      cases l1 <;> cases l2 <;> simp_all
    rw [hemp, sortDescInt_eq_of_perm hperm]
  · intro l
    by_cases hemp : l.isEmpty
    · unfold calculate_h_index
      rw [if_pos hemp]
      exact Nat.zero_le _
    · unfold calculate_h_index
      rw [if_neg hemp]
      have := hAux_le_length (sortDescInt l) 1
      rw [sortDescInt_length] at this
      simpa using this

/-- Witness for C9: the permuted lists `[1,2,3]` and `[3,2,1]` get the same
h-index, and the bound holds at `[5,3,3,1]`. -/
theorem C9_witness_example :
    calculate_h_index [1, 2, 3] = calculate_h_index [3, 2, 1] ∧
    calculate_h_index [5, 3, 3, 1] ≤ 4 :=
  ⟨C9_h_index_perm_invariant_and_bounded.1 [1, 2, 3] [3, 2, 1] (by decide),
   C9_h_index_perm_invariant_and_bounded.2 [5, 3, 3, 1]⟩

/-! ## Claim C8: `get_summary_stats` on the empty paper set -/

/-- C8: on an empty stored paper set `get_summary_stats` returns
`total_papers = 0`, `total_citations = 0`, `h_index = 0` and `avg_citations = 0`
(the division is guarded), rather than failing. -/
theorem C8_summary_stats_empty :
    get_summary_stats [] = ⟨0, 0, 0, 0, 0, 0, 0⟩ := by decide

/-! ## Claim C5: `get_paper_stats` lookup failure -/

/-- C5: an identifier matching no stored DOI and no stored arXiv id makes
`get_paper_stats` fail with the `Paper not found` error; an identifier that
does match some stored paper never produces that failure. -/
theorem C5_paper_stats_not_found (papers : List StoredPaper)
    (records : List CitationRecord) (identifier : String) :
    ((∀ p ∈ papers, p.doi ≠ some identifier ∧ p.arxiv_id ≠ some identifier) →
      get_paper_stats papers records identifier =
        Except.error ("Paper not found: " ++ identifier)) ∧
    ((∃ p ∈ papers, p.doi = some identifier ∨ p.arxiv_id = some identifier) →
      ∃ stats, get_paper_stats papers records identifier = Except.ok stats) := by
  constructor
  · intro hno
    have hfind : papers.find? (matchesIdentifier identifier) = none := by
      apply List.find?_eq_none.mpr
      intro p hp
      have hnp := hno p hp
      simp only [matchesIdentifier, Bool.or_eq_true, beq_iff_eq]
      push_neg
      exact hnp
    unfold get_paper_stats
    rw [hfind]
  · intro hyes
    obtain ⟨p, hp, hmatch⟩ := hyes
    have hsome : (papers.find? (matchesIdentifier identifier)).isSome := by
      rw [List.find?_isSome]
      refine ⟨p, hp, ?_⟩
      simp only [matchesIdentifier, Bool.or_eq_true, beq_iff_eq]
      exact hmatch
    obtain ⟨q, hq⟩ := Option.isSome_iff_exists.mp hsome
    unfold get_paper_stats
    rw [hq]
    exact ⟨_, rfl⟩

/-- Witness for C5: a one-paper store, looked up by an unknown identifier and
by its own DOI. -/
theorem C5_witness_example :
    get_paper_stats [⟨1, "t", some "10.1/x", none, some 2020, none⟩] [] "nope"
      = Except.error "Paper not found: nope" ∧
    ∃ stats, get_paper_stats [⟨1, "t", some "10.1/x", none, some 2020, none⟩] [] "10.1/x"
      = Except.ok stats :=
  ⟨(C5_paper_stats_not_found [⟨1, "t", some "10.1/x", none, some 2020, none⟩] [] "nope").1
      (by decide),
   (C5_paper_stats_not_found [⟨1, "t", some "10.1/x", none, some 2020, none⟩] [] "10.1/x").2
      ⟨⟨1, "t", some "10.1/x", none, some 2020, none⟩, List.mem_singleton.mpr rfl,
        Or.inl rfl⟩⟩

/-! ## Claim C3: a `NULL` venue makes the potential-score helper raise -/

/-- C3 exhibit: on a paper whose optional `venue` is stored as `None`,
`_estimate_potential` — and with it `identify_low_visibility_papers` — raises
`AttributeError` from `None.lower()` instead of returning a result, while the
same paper with the venue key simply absent is handled through the `''`
default and scored `0`. -/
theorem C3_null_venue_raises :
    identify_low_visibility_papers 2026 5 [⟨"t", 0, some 2020, none, VenueField.null⟩]
      = Except.error "AttributeError: NoneType has no attribute lower" ∧
    estimate_potential 2026 ⟨"t", 0, some 2020, none, VenueField.null⟩
      = Except.error "AttributeError: NoneType has no attribute lower" ∧
    identify_low_visibility_papers 2026 5 [⟨"t", 0, some 2020, none, VenueField.missing⟩]
      = Except.ok [⟨"t", 2020, 0, 6, none, 0⟩] := by decide

/-! ## Claim C2: the growth fields of `get_paper_stats` -/

theorem maxCount_cons (r : CitationRecord) (l : List CitationRecord) :
    maxCount (r :: l) = max r.citation_count (maxCount l) := rfl

theorem growthLoop_eq (l : List CitationRecord) : ∀ acc : Horizons,
    growthLoop l acc =
      ⟨max acc.c7 (maxCount (l.filter (fun r => decide (r.days_ago ≤ 7)))),
       max acc.c30 (maxCount (l.filter (fun r => decide (r.days_ago ≤ 30)))),
       max acc.c1y (maxCount (l.filter (fun r => decide (r.days_ago ≤ 365))))⟩ := by
  induction l with
  | nil => intro acc; simp [growthLoop, maxCount]
  | cons r rest ih =>
    intro acc
    simp only [growthLoop]
    rw [ih]
    by_cases h7 : r.days_ago ≤ 7 <;> by_cases h30 : r.days_ago ≤ 30 <;>
      by_cases h365 : r.days_ago ≤ 365 <;>
        simp [List.filter_cons, h7, h30, h365, maxCount_cons, Nat.max_assoc]

theorem maxCount_le_of_sublist {l1 l2 : List CitationRecord} (h : l1.Sublist l2) :
    maxCount l1 ≤ maxCount l2 := by
  induction h with
  | slnil => exact Nat.le_refl 0
  | cons a _ ih => exact le_trans ih (Nat.le_max_right a.citation_count _)
  | cons₂ a _ ih => exact max_le_max (Nat.le_refl a.citation_count) ih

theorem horizonMax_le_latest (records : List CitationRecord) (pid : Nat) (d : Nat) :
    horizonMax records pid d ≤ latestCitations records pid := by
  unfold horizonMax latestCitations get_citation_history
  refine le_trans (maxCount_le_of_sublist (List.filter_sublist _)) ?_
  refine maxCount_le_of_sublist (List.monotone_filter_right records ?_)
  intro a ha
  exact (Bool.and_elim_left ha)

/-- C2 counterexample: a paper whose single citation record (count 5) is 100
days old.  The claim's formula — current count minus the maximum observed
within the horizon, clamped at 0 only when negative — demands
`citations_7d = 5 - 0 = 5`, but the code reports `0` because the 7-day
maximum is zero (falsy). -/
theorem C2_counterexample_growth :
    (get_paper_stats [⟨1, "t", some "d1", none, some 2020, some "v"⟩]
        [⟨1, 100, 5⟩] "d1").map (fun s => s.citations_7d) = Except.ok 0 ∧
    claimedGrowth (latestCitations [⟨1, 100, 5⟩] 1) (horizonMax [⟨1, 100, 5⟩] 1 7) = 5 ∧
    (0 : Int) ≠ 5 := by decide

/-- C2 (amended): for every found paper, each horizon's growth field equals
the current citation count minus the maximum count observed within that
horizon when that maximum is nonzero, and is reported as `0` when no nonzero
count was observed within the horizon; the growth is never negative, since
the current count is the maximum over all of the paper's records. -/
theorem C2_growth_fields (papers : List StoredPaper) (records : List CitationRecord)
    (identifier : String) (paper : StoredPaper)
    (hfind : papers.find? (matchesIdentifier identifier) = some paper) :
    ∃ stats, get_paper_stats papers records identifier = Except.ok stats ∧
      stats.citations = latestCitations records paper.id ∧
      (stats.citations_7d = if horizonMax records paper.id 7 = 0 then 0
        else (latestCitations records paper.id : Int) - (horizonMax records paper.id 7 : Int)) ∧
      (stats.citations_30d = if horizonMax records paper.id 30 = 0 then 0
        else (latestCitations records paper.id : Int) - (horizonMax records paper.id 30 : Int)) ∧
      (stats.citations_1y = if horizonMax records paper.id 365 = 0 then 0
        else (latestCitations records paper.id : Int) - (horizonMax records paper.id 365 : Int)) ∧
      0 ≤ stats.citations_7d ∧ 0 ≤ stats.citations_30d ∧ 0 ≤ stats.citations_1y := by
  have hgl : growthLoop (get_citation_history records paper.id 365) ⟨0, 0, 0⟩ =
      ⟨horizonMax records paper.id 7, horizonMax records paper.id 30,
        horizonMax records paper.id 365⟩ := by
    rw [growthLoop_eq]
    simp [horizonMax]
  have hcase : ∀ d : Nat,
      (0 : Int) ≤ (if horizonMax records paper.id d ≠ 0 then
        (latestCitations records paper.id : Int) - (horizonMax records paper.id d : Int)
        else 0) := by
    intro d
    by_cases hz : horizonMax records paper.id d ≠ 0
    · rw [if_pos hz]
      have := horizonMax_le_latest records paper.id d
      omega
    · rw [if_neg hz]
  have hstats : get_paper_stats papers records identifier =
      Except.ok (paperStatsOf records paper) := by
    unfold get_paper_stats
    rw [hfind]
  refine ⟨paperStatsOf records paper, hstats, rfl, ?_, ?_, ?_, ?_, ?_, ?_⟩
  · simp only [paperStatsOf, hgl]
    rw [ite_not]
  · simp only [paperStatsOf, hgl]
    rw [ite_not]
  · simp only [paperStatsOf, hgl]
    rw [ite_not]
  · simp only [paperStatsOf, hgl]
    exact hcase 7
  · simp only [paperStatsOf, hgl]
    exact hcase 30
  · simp only [paperStatsOf, hgl]
    exact hcase 365

/-- Witness for C2 at a store with one paper and one 100-day-old record. -/
theorem C2_witness_example :
    ∃ stats, get_paper_stats [⟨1, "t", some "d1", none, some 2020, some "v"⟩]
        [⟨1, 100, 5⟩] "d1" = Except.ok stats ∧ 0 ≤ stats.citations_7d := by
  obtain ⟨s, hok, -, -, -, -, h7, -, -⟩ :=
    C2_growth_fields [⟨1, "t", some "d1", none, some 2020, some "v"⟩] [⟨1, 100, 5⟩] "d1"
      ⟨1, "t", some "d1", none, some 2020, some "v"⟩ (by decide)
  exact ⟨s, hok, h7⟩

/-! ## Claims C7 and C10: `get_citation_trends` -/

theorem lookupYear_bumpYear_same (y : Int) (c : Nat) (l : List (Int × YearBucket)) :
    lookupYear (bumpYear y c l) y =
      some ⟨((lookupYear l y).getD ⟨0, 0⟩).papers + 1,
            ((lookupYear l y).getD ⟨0, 0⟩).citations + c⟩ := by
  induction l with
  | nil => simp [bumpYear, lookupYear]
  | cons e rest ih =>
    by_cases he : e.1 = y
    · simp [bumpYear, lookupYear, he]
    · simp only [bumpYear, if_neg he]
      have hb : (e.1 == y) = false := by
        simp [he]
      simp only [lookupYear, List.find?_cons, hb] at ih ⊢
      exact ih

theorem lookupYear_bumpYear_ne {y z : Int} (hne : z ≠ y) (c : Nat)
    (l : List (Int × YearBucket)) : lookupYear (bumpYear y c l) z = lookupYear l z := by
  induction l with
  | nil =>
    have hb : (y == z) = false := by
      simp only [beq_eq_false_iff_ne, ne_eq]
      omega
    simp [bumpYear, lookupYear, hb]
  | cons e rest ih =>
    by_cases he : e.1 = y
    · have hb : (e.1 == z) = false := by
        simp only [beq_eq_false_iff_ne, ne_eq]
        omega
      simp only [bumpYear, if_pos he]
      simp [lookupYear, List.find?_cons, hb]
    · simp only [bumpYear, if_neg he]
      by_cases hez : (e.1 == z) = true
      · simp [lookupYear, List.find?_cons, hez]
      · have hb : (e.1 == z) = false := by
          simp only [Bool.not_eq_true] at hez
          exact hez
        simp only [lookupYear, List.find?_cons, hb] at ih ⊢
        exact ih

theorem countYear_cons (p : Paper) (rest : List Paper) (y : Int) :
    countYear (p :: rest) y =
      (if p.year == some y then 1 else 0) + countYear rest y := by
  by_cases hp : p.year == some y
  · simp [countYear, List.filter_cons, hp]
    omega
  · simp [countYear, List.filter_cons, hp]

theorem sumYear_cons (p : Paper) (rest : List Paper) (y : Int) :
    sumYear (p :: rest) y =
      (if p.year == some y then p.citations else 0) + sumYear rest y := by
  by_cases hp : p.year == some y <;> simp [sumYear, List.filter_cons, hp]

theorem countYear_zero_sumYear (papers : List Paper) (y : Int)
    (h : countYear papers y = 0) : sumYear papers y = 0 := by
  unfold countYear at h
  unfold sumYear
  rw [List.length_eq_zero.mp h]
  rfl

theorem trendFold_lookup (y : Int) (hy : y ≠ 0) : ∀ (papers : List Paper)
    (acc : List (Int × YearBucket)),
    (countYear papers y = 0 → lookupYear (trendFold papers acc) y = lookupYear acc y) ∧
    (0 < countYear papers y → lookupYear (trendFold papers acc) y =
      some ⟨((lookupYear acc y).getD ⟨0, 0⟩).papers + countYear papers y,
            ((lookupYear acc y).getD ⟨0, 0⟩).citations + sumYear papers y⟩) := by
  intro papers
  induction papers with
  | nil =>
    intro acc
    refine ⟨fun _ => rfl, fun hpos => ?_⟩
    simp [countYear] at hpos
  | cons p rest ih =>
    intro acc
    cases hp : p.year with
    | none =>
      have hcount : countYear (p :: rest) y = countYear rest y := by
        rw [countYear_cons]
        simp [hp]
      have hsum : sumYear (p :: rest) y = sumYear rest y := by
        rw [sumYear_cons]
        simp [hp]
      simp only [trendFold, hp, hcount, hsum]
      exact ih acc
    | some z =>
      by_cases hz : z = y
      · -- the paper belongs to the bucket of the queried year
        subst hz
        have hcount : countYear (p :: rest) z = 1 + countYear rest z := by
          rw [countYear_cons]
          simp [hp]
        have hsum : sumYear (p :: rest) z = p.citations + sumYear rest z := by
          rw [sumYear_cons]
          simp [hp]
        simp only [trendFold, hp, if_pos hy, hcount, hsum]
        constructor
        · intro habs
          omega
        · intro _
          rcases Nat.eq_zero_or_pos (countYear rest z) with hc0 | hcpos
          · have heq := (ih (bumpYear z p.citations acc)).1 hc0
            rw [heq, lookupYear_bumpYear_same, hc0, countYear_zero_sumYear rest z hc0]
            simp
          · have heq := (ih (bumpYear z p.citations acc)).2 hcpos
            rw [heq, lookupYear_bumpYear_same]
            simp only [Option.getD_some]
            congr 1
            simp
            omega
      · -- a different year: the bucket of `y` is untouched by this paper
        have hbne : (p.year == some y) = false := by
          rw [hp]
          simp only [beq_eq_false_iff_ne, ne_eq, Option.some.injEq]
          omega
        have hcount : countYear (p :: rest) y = countYear rest y := by
          rw [countYear_cons, hbne]
          simp
        have hsum : sumYear (p :: rest) y = sumYear rest y := by
          rw [sumYear_cons, hbne]
          simp
        by_cases hz0 : z ≠ 0
        · simp only [trendFold, hp, if_pos hz0, hcount, hsum]
          have hlk := lookupYear_bumpYear_ne (fun h => hz h.symm) p.citations acc
          refine ⟨fun h0 => ?_, fun hpos => ?_⟩
          · rw [(ih (bumpYear z p.citations acc)).1 h0, hlk]
          · rw [(ih (bumpYear z p.citations acc)).2 hpos, hlk]
        · simp only [trendFold, hp, if_neg hz0, hcount, hsum]
          exact ih acc

/-- C7: `get_citation_trends` groups papers by publication year — for every
nonzero year the `by_year` bucket holds exactly the count and summed
citations of the papers published that year (and no bucket exists for a year
with no papers) — and on the spec's three-paper example the result is
`by_year[2020] = {papers 2, citations 8}`, `by_year[2021] = {papers 1,
citations 1}`. -/
theorem C7_citation_trends_grouping :
    (∀ (papers : List Paper) (y : Int), y ≠ 0 →
      lookupYear (get_citation_trends papers).by_year y =
        (if countYear papers y = 0 then none
         else some ⟨countYear papers y, sumYear papers y⟩)) ∧
    (get_citation_trends
        [⟨"a", 5, some 2020, none, VenueField.val "v"⟩,
         ⟨"b", 3, some 2020, none, VenueField.val "v"⟩,
         ⟨"c", 1, some 2021, none, VenueField.val "v"⟩]).by_year
      = [(2020, ⟨2, 8⟩), (2021, ⟨1, 1⟩)] := by
  refine ⟨?_, by decide⟩
  intro papers y hy
  have h := trendFold_lookup y hy papers []
  rcases Nat.eq_zero_or_pos (countYear papers y) with hc0 | hcpos
  · rw [if_pos hc0]
    exact h.1 hc0
  · rw [if_neg (by omega)]
    have := h.2 hcpos
    simp only [get_citation_trends]
    rw [this]
    simp [lookupYear]

/-- Witness for C7 at the spec's example and year 2020. -/
theorem C7_witness_example :
    lookupYear (get_citation_trends
        [⟨"a", 5, some 2020, none, VenueField.val "v"⟩,
         ⟨"b", 3, some 2020, none, VenueField.val "v"⟩,
         ⟨"c", 1, some 2021, none, VenueField.val "v"⟩]).by_year 2020
      = some ⟨2, 8⟩ := by
  have h := C7_citation_trends_grouping.1
    [⟨"a", 5, some 2020, none, VenueField.val "v"⟩,
     ⟨"b", 3, some 2020, none, VenueField.val "v"⟩,
     ⟨"c", 1, some 2021, none, VenueField.val "v"⟩] 2020 (by decide)
  rw [h]
  decide

/-- The summed citations of the papers with a truthy publication year. -/
def truthySum (papers : List Paper) : Nat :=
  ((papers.filter (fun p => yearTruthy p.year)).map (fun p => p.citations)).sum

/-- The summed citations of the papers whose publication year is missing or
zero (falsy in Python). -/
def falsySum (papers : List Paper) : Nat :=
  ((papers.filter (fun p => !(yearTruthy p.year))).map (fun p => p.citations)).sum

theorem bucketCitSum_bumpYear (y : Int) (c : Nat) (l : List (Int × YearBucket)) :
    bucketCitSum (bumpYear y c l) = bucketCitSum l + c := by
  induction l with
  | nil => simp [bumpYear, bucketCitSum]
  | cons e rest ih =>
    by_cases he : e.1 = y
    · simp only [bumpYear, if_pos he, bucketCitSum, List.map_cons, List.sum_cons]
      omega
    · simp only [bumpYear, if_neg he, bucketCitSum, List.map_cons, List.sum_cons] at ih ⊢
      omega

theorem bucketCitSum_trendFold (papers : List Paper) : ∀ acc : List (Int × YearBucket),
    bucketCitSum (trendFold papers acc) = bucketCitSum acc + truthySum papers := by
  induction papers with
  | nil =>
    intro acc
    simp [trendFold, truthySum]
  | cons p rest ih =>
    intro acc
    cases hp : p.year with
    | none =>
      simp only [trendFold, hp]
      rw [ih]
      have hts : truthySum (p :: rest) = truthySum rest := by
        simp [truthySum, List.filter_cons, yearTruthy, hp]
      rw [hts]
    | some z =>
      by_cases hz : z ≠ 0
      · simp only [trendFold, hp, if_pos hz]
        rw [ih, bucketCitSum_bumpYear]
        have hts : truthySum (p :: rest) = p.citations + truthySum rest := by
          simp [truthySum, List.filter_cons, yearTruthy, hp, hz]
        rw [hts]
        omega
      · simp only [trendFold, hp, if_neg hz]
        rw [ih]
        have hz0 : z = 0 := by omega
        have hts : truthySum (p :: rest) = truthySum rest := by
          simp [truthySum, List.filter_cons, yearTruthy, hp, hz0]
        rw [hts]

theorem truthySum_add_falsySum (papers : List Paper) :
    truthySum papers + falsySum papers = (papers.map (fun p => p.citations)).sum := by
  induction papers with
  | nil => rfl
  | cons p rest ih =>
    cases hp : yearTruthy p.year <;>
      simp only [truthySum, falsySum, List.filter_cons, hp, Bool.not_false, Bool.not_true,
        List.map_cons, List.sum_cons, if_pos, if_true, if_false, Bool.false_eq_true,
        if_neg] <;>
      simp only [truthySum, falsySum] at ih <;>
      omega

theorem bumpYear_keys {y : Int} (hy : y ≠ 0) (c : Nat) :
    ∀ l : List (Int × YearBucket), (∀ e ∈ l, e.1 ≠ 0) →
      ∀ e ∈ bumpYear y c l, e.1 ≠ 0 := by
  intro l
  induction l with
  | nil =>
    intro _ e he
    simp only [bumpYear, List.mem_singleton] at he
    rw [he]
    exact hy
  | cons a rest ih =>
    intro hl e he
    by_cases ha : a.1 = y
    · simp only [bumpYear, if_pos ha] at he
      rcases List.mem_cons.mp he with h1 | h2
      · rw [h1]
        exact hl a (List.mem_cons_self a rest)
      · exact hl e (List.mem_cons_of_mem a h2)
    · simp only [bumpYear, if_neg ha] at he
      rcases List.mem_cons.mp he with h1 | h2
      · rw [h1]
        exact hl a (List.mem_cons_self a rest)
      · exact ih (fun x hx => hl x (List.mem_cons_of_mem a hx)) e h2

theorem trendFold_keys : ∀ (papers : List Paper) (acc : List (Int × YearBucket)),
    (∀ e ∈ acc, e.1 ≠ 0) → ∀ e ∈ trendFold papers acc, e.1 ≠ 0 := by
  intro papers
  induction papers with
  | nil =>
    intro acc hacc
    simpa [trendFold] using hacc
  | cons p rest ih =>
    intro acc hacc
    cases hp : p.year with
    | none =>
      simp only [trendFold, hp]
      exact ih acc hacc
    | some z =>
      by_cases hz : z ≠ 0
      · simp only [trendFold, hp, if_pos hz]
        exact ih _ (bumpYear_keys hz p.citations acc hacc)
      · simp only [trendFold, hp, if_neg hz]
        exact ih acc hacc

/-- C10: `get_citation_trends` counts papers whose year is missing or zero in
`total_papers` and `total_citations` but puts them in no `by_year` bucket
(every bucket key is a nonzero year, and the bucket citations sum to the
total minus the citations of the falsy-year papers); hence the bucket sum is
at most `total_citations`, strictly below it when a falsy-year paper has a
positive citation count. -/
theorem C10_trends_untracked_years (papers : List Paper) :
    (get_citation_trends papers).total_papers = papers.length ∧
    (get_citation_trends papers).total_citations = (papers.map (fun p => p.citations)).sum ∧
    (∀ e ∈ (get_citation_trends papers).by_year, e.1 ≠ 0) ∧
    bucketCitSum (get_citation_trends papers).by_year + falsySum papers
      = (get_citation_trends papers).total_citations ∧
    bucketCitSum (get_citation_trends papers).by_year
      ≤ (get_citation_trends papers).total_citations ∧
    (∀ p ∈ papers, yearTruthy p.year = false → 0 < p.citations →
      bucketCitSum (get_citation_trends papers).by_year
        < (get_citation_trends papers).total_citations) := by
  have heq : bucketCitSum (get_citation_trends papers).by_year + falsySum papers
      = (get_citation_trends papers).total_citations := by
    show bucketCitSum (trendFold papers []) + falsySum papers = _
    rw [bucketCitSum_trendFold]
    show bucketCitSum [] + truthySum papers + falsySum papers = _
    rw [show bucketCitSum [] = 0 from rfl, Nat.zero_add]
    exact truthySum_add_falsySum papers
  refine ⟨rfl, rfl, ?_, heq, by omega, ?_⟩
  · exact trendFold_keys papers [] (by simp)
  · intro p hp hfalsy hpos
    have hmem : p.citations ∈
        (papers.filter (fun q => !(yearTruthy q.year))).map (fun q => q.citations) :=
      List.mem_map_of_mem _ (List.mem_filter.mpr ⟨hp, by simp [hfalsy]⟩)
    have hle : p.citations ≤ falsySum papers :=
      List.single_le_sum (fun x _ => Nat.zero_le x) _ hmem
    omega

/-- Witness for C10: a store with one missing-year paper (5 citations) and one
2020 paper (2 citations); the bucket sum 2 is strictly below the total 7. -/
theorem C10_witness_example :
    bucketCitSum (get_citation_trends
        [⟨"a", 5, none, none, VenueField.val "v"⟩,
         ⟨"b", 2, some 2020, none, VenueField.val "v"⟩]).by_year
      < (get_citation_trends
        [⟨"a", 5, none, none, VenueField.val "v"⟩,
         ⟨"b", 2, some 2020, none, VenueField.val "v"⟩]).total_citations :=
  (C10_trends_untracked_years
      [⟨"a", 5, none, none, VenueField.val "v"⟩,
       ⟨"b", 2, some 2020, none, VenueField.val "v"⟩]).2.2.2.2.2
    ⟨"a", 5, none, none, VenueField.val "v"⟩ (by decide) (by decide) (by decide)

/-! ## Claim C4: `get_top_papers` -/

theorem insertionSort_filter_eq {α : Type} (r : α → α → Prop) [DecidableRel r]
    (q : α → Bool) (l : List α) (hq : ∀ a b, q a = true → q b = true → r a b) :
    (List.insertionSort r l).filter q = l.filter q := by
  have hpw : (l.filter q).Pairwise r := by
    apply List.pairwise_of_forall_mem_list
    intro a ha b hb
    exact hq a b (List.of_mem_filter ha) (List.of_mem_filter hb)
  have hsub : (l.filter q).Sublist (List.insertionSort r l) :=
    List.sublist_insertionSort hpw (List.filter_sublist l)
  have hsub2 : ((l.filter q).filter q).Sublist ((List.insertionSort r l).filter q) :=
    hsub.filter q
  have hidem : (l.filter q).filter q = l.filter q := by
    simp [List.filter_filter]
  rw [hidem] at hsub2
  have hlen : ((List.insertionSort r l).filter q).length = (l.filter q).length :=
    ((List.perm_insertionSort r l).filter q).length_eq
  exact (hsub2.eq_of_length hlen.symm).symm

theorem pySliceTo_sublist {α : Type} (limit : Int) (l : List α) :
    (pySliceTo limit l).Sublist l := by
  unfold pySliceTo
  by_cases h : limit < 0
  · rw [if_pos h]
    exact List.take_sublist _ l
  · rw [if_neg h]
    exact List.take_sublist _ l

/-- C4 counterexample: with `limit = -1`, Python's `[:limit]` keeps all but
the last entry, so a two-paper store yields one entry — not "at most `limit`
entries". -/
theorem C4_counterexample_negative_limit :
    (get_top_papers (-1)
      [⟨"a", 1, some 2020, none, VenueField.val "v"⟩,
       ⟨"b", 2, some 2021, none, VenueField.val "w"⟩]).length = 1 ∧
    ¬(((get_top_papers (-1)
      [⟨"a", 1, some 2020, none, VenueField.val "v"⟩,
       ⟨"b", 2, some 2021, none, VenueField.val "w"⟩]).length : Int) ≤ -1) := by decide

/-- C4 (amended): for every nonnegative limit `get_top_papers` returns at
most `limit` entries (a negative limit instead drops the last `-limit`
entries of the full list, Python slice semantics); for every limit the result
is sorted non-increasingly by citation count, and stably so: the entries with
any fixed citation count are exactly the papers with that count in input
order, truncated. -/
theorem C4_top_papers_sorted_stable_truncated (papers : List Paper) (limit : Int) :
    (0 ≤ limit → ((get_top_papers limit papers).length : Int) ≤ limit) ∧
    (get_top_papers limit papers).Pairwise (fun a b => b.citations ≤ a.citations) ∧
    (∀ k : Nat, ((get_top_papers limit papers).filter
        (fun e => e.citations == k)).Sublist
      ((papers.map topProj).filter (fun e => e.citations == k))) := by
  haveI : IsTotal Paper byCitationsDesc := ⟨fun a b => le_total b.citations a.citations⟩
  haveI : IsTrans Paper byCitationsDesc := ⟨fun a b c h1 h2 => le_trans h2 h1⟩
  refine ⟨?_, ?_, ?_⟩
  · intro h0
    have h1 : (get_top_papers limit papers).length ≤ limit.toNat := by
      unfold get_top_papers pySliceTo
      rw [if_neg (by omega : ¬limit < 0)]
      rw [List.length_map]
      exact List.length_take_le _ _
    omega
  · have hsorted : (List.insertionSort byCitationsDesc papers).Pairwise byCitationsDesc :=
      List.sorted_insertionSort byCitationsDesc papers
    have hslice : (pySliceTo limit (List.insertionSort byCitationsDesc papers)).Pairwise
        byCitationsDesc :=
      List.Pairwise.sublist (pySliceTo_sublist limit _) hsorted
    exact hslice.map topProj (fun a b hab => hab)
  · intro k
    have hfm : ∀ l : List Paper,
        (l.map topProj).filter (fun e => e.citations == k)
          = (l.filter ((fun e : TopPaper => e.citations == k) ∘ topProj)).map topProj :=
      fun l => List.filter_map topProj l
    unfold get_top_papers
    rw [hfm, hfm]
    apply List.Sublist.map
    have hstable : (List.insertionSort byCitationsDesc papers).filter
        ((fun e : TopPaper => e.citations == k) ∘ topProj)
        = papers.filter ((fun e : TopPaper => e.citations == k) ∘ topProj) := by
      apply insertionSort_filter_eq
      intro a b ha hb
      have ha2 : a.citations = k := by
        simpa [topProj] using ha
      have hb2 : b.citations = k := by
        simpa [topProj] using hb
      show b.citations ≤ a.citations
      omega
    rw [← hstable]
    exact (pySliceTo_sublist limit _).filter _

/-- Witness for C4 at a two-paper store with `limit = 3`. -/
theorem C4_witness_example :
    ((get_top_papers 3
      [⟨"a", 1, some 2020, none, VenueField.val "v"⟩,
       ⟨"b", 2, some 2021, none, VenueField.val "w"⟩]).length : Int) ≤ 3 :=
  (C4_top_papers_sorted_stable_truncated
    [⟨"a", 1, some 2020, none, VenueField.val "v"⟩,
     ⟨"b", 2, some 2021, none, VenueField.val "w"⟩] 3).1 (by decide)

/-! ## Claim C6: `identify_low_visibility_papers` -/

theorem venueBonus_nonneg (v : String) : 0 ≤ venueBonus v := by
  unfold venueBonus
  by_cases h1 : highTier.any (fun t => strContains v t)
  · rw [if_pos h1]
    omega
  · rw [if_neg h1]
    by_cases h2 : midTier.any (fun t => strContains v t)
    · rw [if_pos h2]
      omega
    · rw [if_neg h2]

theorem recencyBonus_nonneg (now_year : Int) (year : Option Int) :
    0 ≤ recencyBonus now_year year := by
  cases year with
  | none => exact le_refl 0
  | some y =>
    simp only [recencyBonus]
    by_cases hy : y ≠ 0
    · rw [if_pos hy]
      by_cases ha : now_year - y < 3
      · rw [if_pos ha]
        have h3 : 1 ≤ 3 - (now_year - y) := by omega
        omega
      · rw [if_neg ha]
    · rw [if_neg hy]

theorem citationBonus_nonneg (citations : Nat) : 0 ≤ citationBonus citations := by
  unfold citationBonus
  by_cases h : 0 < citations
  · rw [if_pos h]
    omega
  · rw [if_neg h]

theorem estimate_potential_nonneg (now_year : Int) (p : Paper) (v : Int)
    (h : estimate_potential now_year p = Except.ok v) : 0 ≤ v := by
  unfold estimate_potential at h
  cases hl : lowerVenue p.venue with
  | none =>
    rw [hl] at h
    simp at h
  | some s =>
    rw [hl] at h
    have hv : v = venueBonus s + recencyBonus now_year p.year + citationBonus p.citations := by
      injection h with h2
      exact h2.symm
    rw [hv]
    have b1 := venueBonus_nonneg s
    have b2 := recencyBonus_nonneg now_year p.year
    have b3 := citationBonus_nonneg p.citations
    omega

theorem lowVisLoop_mem (now_year threshold : Int) : ∀ (papers : List Paper)
    (acc out : List LowVisEntry),
    lowVisLoop now_year threshold papers acc = Except.ok out →
    ∀ e ∈ out, e ∈ acc ∨
      (1 ≤ e.age ∧ (e.citations : Int) < threshold ∧ 0 ≤ e.potential ∧
        e.age = now_year - e.year ∧
        ∃ p ∈ papers, p.title = e.title ∧ p.year = some e.year ∧
          p.citations = e.citations) := by
  intro papers
  induction papers with
  | nil =>
    intro acc out h e he
    simp only [lowVisLoop, Except.ok.injEq] at h
    rw [h]
    exact Or.inl he
  | cons p rest ih =>
    intro acc out h e he
    have hlift : ∀ cond : Prop, (e ∈ acc ∨ (1 ≤ e.age ∧ (e.citations : Int) < threshold ∧
        0 ≤ e.potential ∧ e.age = now_year - e.year ∧
        ∃ q ∈ rest, q.title = e.title ∧ q.year = some e.year ∧
          q.citations = e.citations)) →
        e ∈ acc ∨ (1 ≤ e.age ∧ (e.citations : Int) < threshold ∧
        0 ≤ e.potential ∧ e.age = now_year - e.year ∧
        ∃ q ∈ p :: rest, q.title = e.title ∧ q.year = some e.year ∧
          q.citations = e.citations) := by
      intro _ hin
      rcases hin with hin | ⟨h1, h2, h3, h4, q, hq, hrest⟩
      · exact Or.inl hin
      · exact Or.inr ⟨h1, h2, h3, h4, q, List.mem_cons_of_mem p hq, hrest⟩
    cases hp : p.year with
    | none =>
      simp only [lowVisLoop, hp] at h
      exact hlift True (ih acc out h e he)
    | some y =>
      by_cases hy : y ≠ 0
      · by_cases hcond : 1 ≤ now_year - y ∧ (p.citations : Int) < threshold
        · simp only [lowVisLoop, hp, if_pos hy, if_pos hcond] at h
          cases hep : estimate_potential now_year p with
          | error s =>
            rw [hep] at h
            simp at h
          | ok pot =>
            rw [hep] at h
            have hrec := ih (acc ++ [⟨p.title, y, p.citations, now_year - y, p.doi, pot⟩])
              out h e he
            rcases hrec with hin | hgood
            · rcases List.mem_append.mp hin with hL | hR
              · exact Or.inl hL
              · right
                have he2 : e = ⟨p.title, y, p.citations, now_year - y, p.doi, pot⟩ :=
                  List.mem_singleton.mp hR
                rw [he2]
                refine ⟨hcond.1, hcond.2, estimate_potential_nonneg now_year p pot hep,
                  rfl, p, List.mem_cons_self p rest, rfl, hp, rfl⟩
            · exact hlift True (Or.inr hgood)
        · simp only [lowVisLoop, hp, if_pos hy, if_neg hcond] at h
          exact hlift True (ih acc out h e he)
      · simp only [lowVisLoop, hp, if_neg hy] at h
        exact hlift True (ih acc out h e he)

/-- C6: whenever `identify_low_visibility_papers` returns a result, every
entry stems from a stored paper with a truthy year whose age is at least one
year — papers younger than one year never produce an entry — and whose
citations are below the threshold; every reported potential is nonnegative;
and the result is sorted non-increasingly by potential. -/
theorem C6_low_visibility_entries (now_year threshold : Int) (papers : List Paper)
    (out : List LowVisEntry)
    (h : identify_low_visibility_papers now_year threshold papers = Except.ok out) :
    (∀ e ∈ out, 1 ≤ e.age ∧ (e.citations : Int) < threshold ∧ 0 ≤ e.potential ∧
      e.age = now_year - e.year ∧
      ∃ p ∈ papers, p.title = e.title ∧ p.year = some e.year ∧
        p.citations = e.citations) ∧
    out.Pairwise (fun a b => b.potential ≤ a.potential) := by
  unfold identify_low_visibility_papers at h
  cases hloop : lowVisLoop now_year threshold papers [] with
  | error s =>
    rw [hloop] at h
    simp at h
  | ok entries =>
    rw [hloop] at h
    have hout : out = List.insertionSort byPotentialDesc entries := by
      injection h with h2
      exact h2.symm
    constructor
    · intro e he
      have hmem : e ∈ entries := by
        rw [hout] at he
        exact (List.mem_insertionSort byPotentialDesc).mp he
      rcases lowVisLoop_mem now_year threshold papers [] entries hloop e hmem with habs | hgood
      · simp at habs
      · exact hgood
    · rw [hout]
      haveI : IsTotal LowVisEntry byPotentialDesc :=
        ⟨fun a b => le_total b.potential a.potential⟩
      haveI : IsTrans LowVisEntry byPotentialDesc :=
        ⟨fun a b c h1 h2 => le_trans h2 h1⟩
      exact List.sorted_insertionSort byPotentialDesc entries

/-- Witness for C6 at a one-paper store whose 2024 IEEE paper has 2 citations
(now-year 2025, threshold 5). -/
theorem C6_witness_example :
    ([⟨"t", 2024, 2, 1, some "d", 20⟩] : List LowVisEntry).Pairwise
      (fun a b => b.potential ≤ a.potential) :=
  (C6_low_visibility_entries 2025 5
    [⟨"t", 2, some 2024, some "d", VenueField.val "IEEE Trans"⟩]
    [⟨"t", 2024, 2, 1, some "d", 20⟩] (by decide)).2

end Elephant
